import Mathlib

/-!
# Verification of the llm-maps-integration query-resolution pipeline

A shallow embedding, in Lean 4, of the core backend of the
`llm-maps-integration` repository: the cache layer
(`backend/src/services/cacheService.js`), the entity extractor and
narrative generator (`backend/src/services/llmService.js`), the place
provider adapter (`backend/src/services/mapsService.js`) and the query
orchestrator (`backend/src/controllers/queryController.js`).

JavaScript conventions used throughout the embedding:

* `undefined`/`null`-able values are `Option`; optional chaining `a?.b`
  is `Option.bind`; `x || y` is modelled by explicit truthiness tests.
* Asynchronous external calls (LLM backend, maps provider, Redis) are
  modelled as oracle arguments of type `Except String α`: `.error` is a
  rejected promise / thrown exception, `.ok` a resolved value.
* JavaScript numbers appearing in place records are modelled as `Int`
  (no claim under study depends on float precision or formatting).
* `toLowerCase`/`toUpperCase` are modelled on the ASCII range.
-/

namespace LlmMaps

/-! ## JavaScript string primitives -/

/-- The characters JavaScript `String.prototype.trim` removes
(whitespace and line terminators; the common ones). -/
def jsWhitespace (c : Char) : Bool :=
  c = ' ' || c = '\t' || c = '\n' || c = '\x0d' ||
  c = '\x0b' || c = '\x0c' || c = '\u00A0' || c = '\uFEFF'

/-- `String.prototype.trim`. -/
def jsTrim (s : String) : String :=
  ⟨(s.data.dropWhile jsWhitespace).reverse.dropWhile jsWhitespace |>.reverse⟩

/-- ASCII model of `String.prototype.toLowerCase`. -/
def asciiToLower (s : String) : String :=
  ⟨s.data.map fun c =>
    if 'A' ≤ c ∧ c ≤ 'Z' then Char.ofNat (c.toNat + 32) else c⟩

/-- `haystack.includes(needle)` (substring containment). -/
def strIncludes (haystack needle : String) : Bool :=
  go haystack.data
where
  go : List Char → Bool
  | [] => needle.data.isPrefixOf []
  | l@(_ :: t) => needle.data.isPrefixOf l || go t

/-- `new Set(xs)` followed by spreading back to an array: removes
duplicates keeping the first occurrence, preserving insertion order. -/
def jsSetDedup (xs : List String) : List String :=
  go [] xs
where
  go (seen : List String) : List String → List String
  | [] => []
  | x :: rest => if x ∈ seen then go seen rest else x :: go (x :: seen) rest

theorem jsSetDedup_go_nodup (seen : List String) (xs : List String) :
    (jsSetDedup.go seen xs).Nodup ∧ ∀ y ∈ jsSetDedup.go seen xs, y ∉ seen := by
  induction xs generalizing seen with
  | nil => simp [jsSetDedup.go]
  | cons x rest ih =>
    by_cases hx : x ∈ seen
    · simpa [jsSetDedup.go, hx] using ih seen
    · obtain ⟨hnd, hni⟩ := ih (x :: seen)
      refine ⟨?_, ?_⟩
      · simp only [jsSetDedup.go, hx, if_false, List.nodup_cons]
        exact ⟨fun hmem => (hni x hmem) (List.mem_cons_self x seen), hnd⟩
      · intro y hy
        simp only [jsSetDedup.go, hx, if_false, List.mem_cons] at hy
        rcases hy with rfl | hy
        · exact hx
        · exact fun hyseen => (hni y hy) (List.mem_cons_of_mem x hyseen)

/-- The result of the `Set`-based deduplication has no duplicates. -/
theorem jsSetDedup_nodup (xs : List String) : (jsSetDedup xs).Nodup :=
  (jsSetDedup_go_nodup [] xs).1

/-! ## UTF-8 encoding (used by both `crypto.createHash` input and
`encodeURIComponent`) -/

/-- UTF-8 encoding of a single Unicode scalar value, as a list of
byte values. -/
def utf8Char (c : Char) : List Nat :=
  let n := c.toNat
  if n < 128 then [n]
  else if n < 2048 then
    [192 + n / 64, 128 + n % 64]
  else if n < 65536 then
    [224 + n / 4096, 128 + n / 64 % 64, 128 + n % 64]
  else
    [240 + n / 262144, 128 + n / 4096 % 64, 128 + n / 64 % 64, 128 + n % 64]

/-- UTF-8 encoding of a string, as a list of byte values. -/
def utf8Bytes (s : String) : List Nat :=
  s.data.flatMap utf8Char

/-! ## MD5 (`crypto.createHash("md5")`)

A direct embedding of the MD5 algorithm (RFC 1321) over `Nat`, with
32-bit arithmetic made explicit via `% 2^32`. -/

namespace MD5

/-- Addition modulo 2^32. -/
def madd (a b : Nat) : Nat := (a + b) % 4294967296

/-- Bitwise complement within 32 bits (valid for inputs `< 2^32`). -/
def mnot (a : Nat) : Nat := 4294967295 - a

/-- 32-bit left rotation. -/
def rotl (x s : Nat) : Nat :=
  (x <<< s) % 4294967296 + x >>> (32 - s)

/-- The 64 sine-derived round constants `K[i] = ⌊2^32·|sin(i+1)|⌋`. -/
def K : List Nat :=
  [3614090360, 3905402710, 606105819, 3250441966, 4118548399, 1200080426, 2821735955, 4249261313,
   1770035416, 2336552879, 4294925233, 2304563134, 1804603682, 4254626195, 2792965006, 1236535329,
   4129170786, 3225465664, 643717713, 3921069994, 3593408605, 38016083, 3634488961, 3889429448,
   568446438, 3275163606, 4107603335, 1163531501, 2850285829, 4243563512, 1735328473, 2368359562,
   4294588738, 2272392833, 1839030562, 4259657740, 2763975236, 1272893353, 4139469664, 3200236656,
   681279174, 3936430074, 3572445317, 76029189, 3654602809, 3873151461, 530742520, 3299628645,
   4096336452, 1126891415, 2878612391, 4237533241, 1700485571, 2399980690, 4293915773, 2240044497,
   1873313359, 4264355552, 2734768916, 1309151649, 4149444226, 3174756917, 718787259, 3951481745]

/-- The per-round left-rotation amounts. -/
def S : List Nat :=
  [7, 12, 17, 22, 7, 12, 17, 22, 7, 12, 17, 22, 7, 12, 17, 22,
   5, 9, 14, 20, 5, 9, 14, 20, 5, 9, 14, 20, 5, 9, 14, 20,
   4, 11, 16, 23, 4, 11, 16, 23, 4, 11, 16, 23, 4, 11, 16, 23,
   6, 10, 15, 21, 6, 10, 15, 21, 6, 10, 15, 21, 6, 10, 15, 21]

/-- One MD5 round: state `(a, b, c, d)`, round index `i`, message
words `M`. -/
def round (M : List Nat) (st : Nat × Nat × Nat × Nat) (i : Nat) :
    Nat × Nat × Nat × Nat :=
  let (a, b, c, d) := st
  let f :=
    if i < 16 then (b &&& c) ||| (mnot b &&& d)
    else if i < 32 then (d &&& b) ||| (mnot d &&& c)
    else if i < 48 then b ^^^ c ^^^ d
    else c ^^^ (b ||| mnot d)
  let g :=
    if i < 16 then i
    else if i < 32 then (5 * i + 1) % 16
    else if i < 48 then (3 * i + 5) % 16
    else (7 * i) % 16
  let tmp := madd (madd (madd f a) (K.getD i 0)) (M.getD g 0)
  (d, madd b (rotl tmp (S.getD i 0)), b, c)

/-- Split a 64-byte block into 16 little-endian 32-bit words. -/
def blockWords : List Nat → List Nat
  | b0 :: b1 :: b2 :: b3 :: rest =>
    (b0 + 256 * b1 + 65536 * b2 + 16777216 * b3) :: blockWords rest
  | _ => []

/-- Process one 64-byte block, updating the running state. -/
def processBlock (st : Nat × Nat × Nat × Nat) (block : List Nat) :
    Nat × Nat × Nat × Nat :=
  let M := blockWords block
  let (a, b, c, d) := (List.range 64).foldl (round M) st
  let (a0, b0, c0, d0) := st
  (madd a0 a, madd b0 b, madd c0 c, madd d0 d)

/-- Split a byte list into 64-byte chunks (structural recursion on a
fuel bound so that the kernel can evaluate it). -/
def chunksGo : Nat → List Nat → List (List Nat)
  | 0, _ => []
  | _, [] => []
  | fuel + 1, b :: bs => (b :: bs).take 64 :: chunksGo fuel ((b :: bs).drop 64)

/-- Split a byte list into 64-byte chunks. -/
def chunks64 (bs : List Nat) : List (List Nat) :=
  chunksGo bs.length bs

/-- MD5 padding: a `0x80` byte, zeros to 56 mod 64, then the bit
length as 8 little-endian bytes. -/
def padMessage (msg : List Nat) : List Nat :=
  let len := msg.length
  let bitLen := (8 * len) % 18446744073709551616
  let zeros := (120 - (len + 1) % 64) % 64
  msg ++ [128] ++ List.replicate zeros 0 ++
    (List.range 8).map fun k => bitLen >>> (8 * k) % 256

/-- A 32-bit word as 4 little-endian bytes. -/
def wordBytes (w : Nat) : List Nat :=
  [w % 256, w >>> 8 % 256, w >>> 16 % 256, w >>> 24 % 256]

/-- Lowercase hexadecimal digit. -/
def hexDigit (n : Nat) : Char :=
  if n < 10 then Char.ofNat (48 + n) else Char.ofNat (87 + n)

/-- A byte as two lowercase hex characters. -/
def byteHex (b : Nat) : List Char :=
  [hexDigit (b / 16), hexDigit (b % 16)]

/-- The MD5 digest of a byte list, as 16 bytes. -/
def digestBytes (msg : List Nat) : List Nat :=
  let st := (chunks64 (padMessage msg)).foldl processBlock
    (1732584193, 4023233417, 2562383102, 271733878)
  let (a, b, c, d) := st
  wordBytes a ++ wordBytes b ++ wordBytes c ++ wordBytes d

end MD5

/-- `crypto.createHash("md5").update(s).digest("hex")`: the MD5 digest
of the UTF-8 bytes of `s`, in lowercase hex. -/
def md5hex (s : String) : String :=
  ⟨(MD5.digestBytes (utf8Bytes s)).flatMap MD5.byteHex⟩

/-! ## JSON values and `JSON.parse`

`JSON.parse` / `JSON.stringify` are JavaScript built-ins; the repository
uses them for cache (de)serialization and for parsing LLM output.  The
embedding below implements the JSON grammar (ECMA-404) over `Char`
lists, with recursion made structural on a fuel bound so the kernel can
evaluate concrete inputs.  Numbers are kept as their source lexeme: no
claim under study depends on numeric value semantics. -/

/-- A parsed JSON value. -/
inductive JsonValue where
  | jnull : JsonValue
  | jbool (b : Bool) : JsonValue
  | jnum (lexeme : String) : JsonValue
  | jstr (s : String) : JsonValue
  | jarr (elems : List JsonValue) : JsonValue
  | jobj (fields : List (String × JsonValue)) : JsonValue
deriving Repr, Inhabited

namespace Json

/-- JSON insignificant whitespace (space, tab, line feed, carriage
return). -/
def jsonWs (c : Char) : Bool :=
  c = ' ' || c = '\t' || c = '\n' || c = '\x0d'

/-- Skip insignificant whitespace. -/
def skipWs (cs : List Char) : List Char :=
  cs.dropWhile jsonWs

/-- ASCII decimal digit. -/
def isDigit (c : Char) : Bool := '0' ≤ c && c ≤ '9'

/-- Hexadecimal digit value. -/
def hexVal (c : Char) : Option Nat :=
  if '0' ≤ c && c ≤ '9' then some (c.toNat - 48)
  else if 'a' ≤ c && c ≤ 'f' then some (c.toNat - 87)
  else if 'A' ≤ c && c ≤ 'F' then some (c.toNat - 55)
  else none

/-- Parse exactly four hexadecimal digits. -/
def parseHex4 : List Char → Option (Nat × List Char)
  | c1 :: c2 :: c3 :: c4 :: rest => do
    let v1 ← hexVal c1
    let v2 ← hexVal c2
    let v3 ← hexVal c3
    let v4 ← hexVal c4
    pure (4096 * v1 + 256 * v2 + 16 * v3 + v4, rest)
  | _ => none

/-- Parse the body of a JSON string (after the opening quote), up to
and including the closing quote.  The one divergence from JavaScript:
a lone UTF-16 surrogate produced by `\uXXXX` is mapped to `U+FFFD`,
because Lean strings hold Unicode scalar values only (no claim under
study exercises lone surrogates). -/
def parseStringBody : Nat → List Char → List Char →
    Except String (String × List Char)
  | 0, _, _ => .error "out of fuel"
  | _ + 1, _, [] =>
    .error "Unterminated string"
  | fuel + 1, acc, c :: rest =>
    if c = '"' then .ok (⟨acc.reverse⟩, rest)
    else if c = '\\' then
      match rest with
      | [] => .error "Unterminated escape"
      | e :: rest2 =>
        if e = '"' then parseStringBody fuel ('"' :: acc) rest2
        else if e = '\\' then parseStringBody fuel ('\\' :: acc) rest2
        else if e = '/' then parseStringBody fuel ('/' :: acc) rest2
        else if e = 'b' then parseStringBody fuel ('\x08' :: acc) rest2
        else if e = 'f' then parseStringBody fuel ('\x0c' :: acc) rest2
        else if e = 'n' then parseStringBody fuel ('\n' :: acc) rest2
        else if e = 'r' then parseStringBody fuel ('\x0d' :: acc) rest2
        else if e = 't' then parseStringBody fuel ('\t' :: acc) rest2
        else if e = 'u' then
          match parseHex4 rest2 with
          | none => .error "Bad unicode escape"
          | some (n, rest3) =>
            if 55296 ≤ n ∧ n ≤ 56319 then
              match rest3 with
              | '\\' :: 'u' :: rest4 =>
                match parseHex4 rest4 with
                | some (n2, rest5) =>
                  if 56320 ≤ n2 ∧ n2 ≤ 57343 then
                    let cp := 65536 + (n - 55296) * 1024 + (n2 - 56320)
                    parseStringBody fuel (Char.ofNat cp :: acc) rest5
                  else parseStringBody fuel ('�' :: acc) rest3
                | none => parseStringBody fuel ('�' :: acc) rest3
              | _ => parseStringBody fuel ('�' :: acc) rest3
            else if 56320 ≤ n ∧ n ≤ 57343 then
              parseStringBody fuel ('�' :: acc) rest3
            else
              parseStringBody fuel (Char.ofNat n :: acc) rest3
        else .error "Bad escape character"
    else if c.toNat < 32 then .error "Bad control character in string"
    else parseStringBody fuel (c :: acc) rest

/-- Parse a JSON number starting at `cs` (first char is `-` or a
digit), returning its lexeme. -/
def parseNumber (cs : List Char) : Except String (String × List Char) :=
  let (sign, cs1) :=
    match cs with
    | '-' :: t => (['-'], t)
    | _ => (([] : List Char), cs)
  match cs1 with
  | [] => .error "Expected digit"
  | c :: t =>
    if c = '0' ∨ ¬ isDigit c then
      if c = '0' then afterInt (sign ++ ['0']) t
      else .error "Expected digit"
    else
      let digits := (c :: t).takeWhile isDigit
      afterInt (sign ++ digits) ((c :: t).dropWhile isDigit)
where
  /-- After the integer part: optional fraction then optional exponent. -/
  afterInt (lex : List Char) (cs : List Char) :
      Except String (String × List Char) :=
    match cs with
    | '.' :: t =>
      let frac := t.takeWhile isDigit
      if frac = [] then .error "Expected fraction digits"
      else afterFrac (lex ++ ['.'] ++ frac) (t.dropWhile isDigit)
    | _ => afterFrac lex cs
  /-- After the fraction: optional exponent. -/
  afterFrac (lex : List Char) (cs : List Char) :
      Except String (String × List Char) :=
    match cs with
    | e :: t =>
      if e = 'e' ∨ e = 'E' then
        let (sgn, t2) :=
          match t with
          | '+' :: t2 => (['+'], t2)
          | '-' :: t2 => (['-'], t2)
          | _ => (([] : List Char), t)
        let digits := t2.takeWhile isDigit
        if digits = [] then .error "Expected exponent digits"
        else .ok (⟨lex ++ [e] ++ sgn ++ digits⟩, t2.dropWhile isDigit)
      else .ok (⟨lex⟩, e :: t)
    | [] => .ok (⟨lex⟩, [])

mutual

/-- Parse one JSON value. -/
def parseValue : Nat → List Char → Except String (JsonValue × List Char)
  | 0, _ => .error "out of fuel"
  | fuel + 1, cs =>
    match skipWs cs with
    | [] => .error "Unexpected end of JSON input"
    | c :: rest =>
      if c = '{' then
        match skipWs rest with
        | '}' :: rest2 => .ok (.jobj [], rest2)
        | rest2 =>
          match parseFields fuel [] rest2 with
          | .error e => .error e
          | .ok (fs, rest3) => .ok (.jobj fs, rest3)
      else if c = '[' then
        match skipWs rest with
        | ']' :: rest2 => .ok (.jarr [], rest2)
        | rest2 =>
          match parseElems fuel [] rest2 with
          | .error e => .error e
          | .ok (vs, rest3) => .ok (.jarr vs, rest3)
      else if c = '"' then
        match parseStringBody (rest.length + 1) [] rest with
        | .ok (s, rest2) => .ok (.jstr s, rest2)
        | .error e => .error e
      else if c = 't' then
        match rest with
        | 'r' :: 'u' :: 'e' :: rest2 => .ok (.jbool true, rest2)
        | _ => .error "Unexpected token t"
      else if c = 'f' then
        match rest with
        | 'a' :: 'l' :: 's' :: 'e' :: rest2 => .ok (.jbool false, rest2)
        | _ => .error "Unexpected token f"
      else if c = 'n' then
        match rest with
        | 'u' :: 'l' :: 'l' :: rest2 => .ok (.jnull, rest2)
        | _ => .error "Unexpected token n"
      else if c = '-' ∨ isDigit c then
        match parseNumber (c :: rest) with
        | .ok (lex, rest2) => .ok (.jnum lex, rest2)
        | .error e => .error e
      else .error "Unexpected token"

/-- Parse the elements of a non-empty array (position: at the start of
a value). -/
def parseElems (fuel : Nat) (acc : List JsonValue) (cs : List Char) :
    Except String (List JsonValue × List Char) :=
  match fuel with
  | 0 => .error "out of fuel"
  | fuel + 1 =>
    match parseValue fuel cs with
    | .error e => .error e
    | .ok (v, rest) =>
      match skipWs rest with
      | ',' :: rest2 => parseElems fuel (v :: acc) rest2
      | ']' :: rest2 => .ok ((v :: acc).reverse, rest2)
      | _ => .error "Expected , or ] in array"

/-- Parse the fields of a non-empty object (position: at the start of
a `"key": value` member). -/
def parseFields (fuel : Nat) (acc : List (String × JsonValue))
    (cs : List Char) : Except String (List (String × JsonValue) × List Char) :=
  match fuel with
  | 0 => .error "out of fuel"
  | fuel + 1 =>
    match skipWs cs with
    | '"' :: rest =>
      match parseStringBody (rest.length + 1) [] rest with
      | .error e => .error e
      | .ok (key, rest2) =>
        match skipWs rest2 with
        | ':' :: rest3 =>
          match parseValue fuel rest3 with
          | .error e => .error e
          | .ok (v, rest4) =>
            match skipWs rest4 with
            | ',' :: rest5 => parseFields fuel ((key, v) :: acc) rest5
            | '}' :: rest5 => .ok (((key, v) :: acc).reverse, rest5)
            | _ => .error "Expected , or \x7d in object"
        | _ => .error "Expected : after key"
    | _ => .error "Expected string key in object"

end

/-- `JSON.parse(s)`: parse `s` as JSON, requiring the whole input
(modulo trailing whitespace) to be consumed. -/
def jsonParse (s : String) : Except String JsonValue :=
  match parseValue (2 * s.length + 16) s.data with
  | .error e => .error e
  | .ok (v, rest) =>
    match skipWs rest with
    | [] => .ok v
    | _ => .error "Unexpected non-whitespace character after JSON"

/-- Object member lookup.  `JSON.parse` keeps the *last* occurrence of
a duplicated key, so lookup returns the last match. -/
def lookupLast (fields : List (String × JsonValue)) (key : String) :
    Option JsonValue :=
  (fields.reverse.find? fun kv => kv.1 = key).map Prod.snd

end Json

/-- JavaScript truthiness of a JSON value: `null`, `false`, numeric
zero and the empty string are falsy; every object and array (even
empty) is truthy.  A numeric lexeme is zero when its mantissa has no
nonzero digit. -/
def jsTruthy : JsonValue → Bool
  | .jnull => false
  | .jbool b => b
  | .jstr s => s ≠ ""
  | .jnum lex =>
    (lex.data.takeWhile fun c => c ≠ 'e' ∧ c ≠ 'E').any fun c =>
      '1' ≤ c ∧ c ≤ '9'
  | .jarr _ => true
  | .jobj _ => true

/-- JavaScript `String(v)` for a JSON value.  Arrays stringify as their
elements joined with `","` (with `null` elements becoming empty),
objects as `"[object Object]"`.  One approximation: a number
stringifies as its JSON source lexeme (float re-formatting is not
modelled; no claim under study depends on it). -/
def jsToString : JsonValue → String
  | .jnull => "null"
  | .jbool true => "true"
  | .jbool false => "false"
  | .jnum lex => lex
  | .jstr s => s
  | .jobj _ => "[object Object]"
  | .jarr xs => String.intercalate "," (joinParts xs)
where
  joinParts : List JsonValue → List String
  | [] => []
  | .jnull :: rest => "" :: joinParts rest
  | x :: rest => jsToString x :: joinParts rest

/-! ## Cache layer (`backend/src/services/cacheService.js`)

The Redis client is modelled as oracle functions from the derived key
to the outcome of the corresponding Redis command; `.error` covers
thrown errors and an unreachable store (including a failing
`_connect`, which the service performs inside the same `try`). -/

namespace CacheService

/-- `generateKey(...args)` (cacheService.js lines 58–61): join the key
parts with `":"`, hash the joined string with MD5, and prefix the fixed
`"llm_maps:"` namespace. -/
def generateKey (args : List String) : String :=
  "llm_maps:" ++ md5hex (String.intercalate ":" args)

/-- `get(...args)` (lines 63–77): derive the key, read it; a falsy
value (absent key or empty string) is a miss (`null`); a present value
is `JSON.parse`d — a parse failure is caught by the surrounding
`try`/`catch`, which also returns `null`, as does any store error. -/
def get (store : String → Except String (Option String))
    (args : List String) : Option JsonValue :=
  match store (generateKey args) with
  | .error _ => none
  | .ok none => none
  | .ok (some v) =>
    if v = "" then none
    else
      match Json.jsonParse v with
      | .error _ => none
      | .ok j => some j

/-- `set(value, ttl, ...args)` (lines 79–92): derive the key and issue
`setEx`; `true` on success, `false` on any error.  The serialized
value and TTL are folded into the store oracle (they do not affect the
returned boolean). -/
def set (store : String → Except String Unit) (args : List String) : Bool :=
  match store (generateKey args) with
  | .error _ => false
  | .ok _ => true

/-- `delete(...args)` (lines 94–106): derive the key and issue `del`;
the result is `Boolean(deletedCount)`; any error yields `false`. -/
def del (store : String → Except String Nat) (args : List String) : Bool :=
  match store (generateKey args) with
  | .error _ => false
  | .ok n => n ≠ 0

/-- `increment(...args)` (lines 108–119): derive the key, `incr` it,
then set a fixed 60-second expiry; any error in either step yields
`0`. -/
def increment (incr : String → Except String Int)
    (expire : String → Except String Unit) (args : List String) : Int :=
  match incr (generateKey args) with
  | .error _ => 0
  | .ok v =>
    match expire (generateKey args) with
    | .error _ => 0
    | .ok _ => v

end CacheService

/-! ## Entity extraction (`backend/src/services/llmService.js`)

The LLM backend (`generateResponse`) is an external HTTP call; its
outcome is an oracle `Except String String` (`.error` = network
failure, timeout or invalid response shape — all of which
`generateResponse` converts into a thrown error). -/

namespace LlmService

/-- `s.startsWith(p)`. -/
def jsStartsWith (s p : String) : Bool := p.data.isPrefixOf s.data

/-- `s.endsWith(p)`. -/
def jsEndsWith (s p : String) : Bool := p.data.isSuffixOf s.data

/-- `.replace(/[‘’]/g, "'")`: straighten curly single
quotes. -/
def replaceCurlyQuotes (s : String) : String :=
  ⟨s.data.map fun c => if c = '‘' ∨ c = '’' then '\'' else c⟩

/-- `.replace(/'/g, '"')`: replace every single quote with a double
quote. -/
def singleToDouble (s : String) : String :=
  ⟨s.data.map fun c => if c = '\'' then '"' else c⟩

/-- Scanner for `.replace(/,\s*([}\]])/g, "$1")`: a comma followed by
optional whitespace and a closing `}`/`]` is replaced by that closing
bracket (structural on a fuel bound; `fuel = length` suffices since
every step consumes at least one character). -/
def removeTrailingCommasGo : Nat → List Char → List Char
  | 0, cs => cs
  | _ + 1, [] => []
  | fuel + 1, ',' :: rest =>
    let after := rest.dropWhile jsWhitespace
    match after with
    | c :: rest2 =>
      if c = '}' ∨ c = ']' then c :: removeTrailingCommasGo fuel rest2
      else ',' :: removeTrailingCommasGo fuel rest
    | [] => ',' :: removeTrailingCommasGo fuel rest
  | fuel + 1, c :: rest => c :: removeTrailingCommasGo fuel rest

/-- `.replace(/,\s*([}\]])/g, "$1")`: remove trailing commas before a
closing bracket. -/
def removeTrailingCommas (s : String) : String :=
  ⟨removeTrailingCommasGo s.data.length s.data⟩

/-- The markdown fence stripping performed at the start of
`_attemptParseJson` (lines 321–329): trim, drop a leading `"```json"`
(`slice(7)`), drop a trailing `"```"` (`slice(0, -3)`), trim again. -/
def stripFences (s : String) : String :=
  let c1 := jsTrim s
  let c2 := if jsStartsWith c1 "```json" then ⟨c1.data.drop 7⟩ else c1
  let c3 :=
    if jsEndsWith c2 "```" then ⟨c2.data.take (c2.data.length - 3)⟩ else c2
  jsTrim c3

/-- `_attemptParseJson(str)` (lines 316–348): reject a falsy input,
strip markdown fences, attempt a direct `JSON.parse`; on failure apply
— to the whole cleaned string — curly-quote straightening,
single-to-double quote replacement and trailing-comma removal, and
re-parse once; on a second failure, throw. -/
def attemptParseJson (s : String) : Except String JsonValue :=
  if s = "" then .error "No string to parse"
  else
    let cleaned := stripFences s
    match Json.jsonParse cleaned with
    | .ok v => .ok v
    | .error _ =>
      let aggressiveFix :=
        removeTrailingCommas (singleToDouble (replaceCurlyQuotes cleaned))
      match Json.jsonParse aggressiveFix with
      | .ok v => .ok v
      | .error _ =>
        .error "Unable to parse JSON from LLM response even after aggressive cleanup."

/-- Brace balance check: every prefix has at least as many `{` as `}`,
and the whole has equally many. -/
def bracesBalanced (cs : List Char) : Bool :=
  go 0 cs
where
  go : Nat → List Char → Bool
  | d, [] => d = 0
  | d, c :: rest =>
    if c = '{' then go (d + 1) rest
    else if c = '}' then
      match d with
      | 0 => false
      | d + 1 => go d rest
    else go d rest

/-- All balanced `{...}` substrings of `s`. -/
def balancedBraceSubstrings (s : String) : List String :=
  let cs := s.data
  let n := cs.length
  (List.range n).flatMap fun i =>
    (List.range (n - i)).filterMap fun len =>
      let sub := (cs.drop i).take (len + 1)
      if sub.head? = some '{' ∧ sub.getLast? = some '}' ∧ bracesBalanced sub
      then some (String.mk sub) else none

/-- Insert into a list sorted by decreasing string length. -/
def insertByLen (x : String) : List String → List String
  | [] => [x]
  | y :: rest =>
    if y.length < x.length then x :: y :: rest else y :: insertByLen x rest

/-- Sort strings by decreasing length. -/
def sortByLenDesc : List String → List String
  | [] => []
  | x :: rest => insertByLen x (sortByLenDesc rest)

/-- Modelled from the spec: the JSON repair chain the specification
describes for the entity extractor — "strip markdown code fences,
attempt direct JSON parse; on failure, scan for the longest balanced
`{...}` substring(s), try each (longest first) with single→double
quote normalization and trailing-comma removal, in that order, until
one parses."  The balanced-brace substring scan is absent from the
repository's `_attemptParseJson`; this definition follows the spec's
words so the two can be compared. -/
def specAttemptParseJson (s : String) : Except String JsonValue :=
  let cleaned := stripFences s
  match Json.jsonParse cleaned with
  | .ok v => .ok v
  | .error _ =>
    match
      (sortByLenDesc (balancedBraceSubstrings cleaned)).findSome? fun cand =>
        (Json.jsonParse (removeTrailingCommas (singleToDouble cand))).toOption
    with
    | some v => .ok v
    | none => .error "unparseable"

/-- The normalized entity structure produced by the extractor. -/
structure Entities where
  place_names : List String
  place_types : List String
  locations : List String
deriving Repr, DecidableEq

/-- The synonym table of `_normalizePlaceType` (lines 399–418). -/
def placeTypeSynonyms : List (String × String) :=
  [("restoran", "restaurant"), ("rumah makan", "restaurant"),
   ("warung", "restaurant"), ("resto", "restaurant"),
   ("cafe", "cafe"), ("kafe", "cafe"), ("coffee shop", "cafe"),
   ("kedai", "cafe"), ("hotel", "hotel"), ("mall", "mall"),
   ("taman", "park"), ("tempat wisata", "point_of_interest"),
   ("co_working", "coworking_space")]

/-- `_normalizePlaceType(type)` (lines 399–418): falsy input yields
`null`; a truthy string is lower-cased, trimmed and looked up in the
synonym table (`map[t] || t`); a truthy non-string raises a
`TypeError` (`type.toLowerCase` is not a function), modelled as
`.error`. -/
def normalizePlaceType (v : JsonValue) : Except Unit (Option String) :=
  if ¬ jsTruthy v then .ok none
  else
    match v with
    | .jstr s =>
      let t := jsTrim (asciiToLower s)
      match (placeTypeSynonyms.find? fun p => p.1 = t).map Prod.snd with
      | some m => .ok (some m)
      | none => .ok (some t)
    | _ => .error ()

/-- `raw.key` when `raw` is an object and the member is an array;
anywhere else the `Array.isArray` guard fails and the branch yields
`[]`. -/
def fieldArray (raw : JsonValue) (key : String) : List JsonValue :=
  match raw with
  | .jobj fields =>
    match Json.lookupLast fields key with
    | some (.jarr xs) => xs
    | _ => []
  | _ => []

/-- `xs.map(p => this._normalizePlaceType(p))`, with a thrown
`TypeError` propagating. -/
def mapNormalizePT : List JsonValue → Except Unit (List (Option String))
  | [] => .ok []
  | x :: rest =>
    match normalizePlaceType x with
    | .error e => .error e
    | .ok v =>
      match mapNormalizePT rest with
      | .error e => .error e
      | .ok vs => .ok (v :: vs)

/-- `_normalizeEntities(raw)` (lines 356–391): a falsy or non-object
input yields the empty structure; otherwise each of the three members
is kept only when it is an array, whose elements are stringified
(place names), synonym-normalized (place types) or lower-cased
(locations), filtered by truthiness and deduplicated via `new Set`.
The only possible error is the `TypeError` from `_normalizePlaceType`
on a truthy non-string place type. -/
def normalizeEntities (raw : JsonValue) : Except Unit Entities :=
  match raw with
  | .jobj _ | .jarr _ =>
    let pn := jsSetDedup
      (((fieldArray raw "place_names").map fun p =>
        jsTrim (jsToString p)).filter (· ≠ ""))
    match mapNormalizePT (fieldArray raw "place_types") with
    | .error e => .error e
    | .ok pts =>
      .ok { place_names := pn,
            place_types := jsSetDedup ((pts.filterMap id).filter (· ≠ "")),
            locations := jsSetDedup
              (((fieldArray raw "locations").map fun l =>
                jsTrim (asciiToLower (jsToString l))).filter (· ≠ "")) }
  | _ => .ok ⟨[], [], []⟩

/-- The fixed keyword table of `extractPlaceTypes` (lines 426–448). -/
def placeTypeKeywords : List (String × List String) :=
  [("restaurant", ["restaurant", "restoran", "rumah makan", "warung", "resto"]),
   ("cafe", ["cafe", "kafe", "coffee shop", "kedai", "kedai kopi"]),
   ("hotel", ["hotel"]),
   ("mall", ["mall"]),
   ("park", ["park", "taman"]),
   ("point_of_interest", ["tempat wisata"])]

/-- `extractPlaceTypes(text)` (lines 426–448): lower-case the text and
collect, in table order, every type one of whose keywords occurs as a
substring. -/
def extractPlaceTypes (text : String) : List String :=
  let tl := asciiToLower text
  (placeTypeKeywords.filter fun tk =>
    tk.2.any fun kw => strIncludes tl kw).map Prod.fst

/-- The fixed city list of `extractLocations` (lines 457–474). -/
def knownLocations : List String :=
  ["bandung", "jakarta", "surabaya", "yogyakarta", "jogja", "bali",
   "medan", "semarang", "makassar", "palembang", "tangerang", "depok",
   "bekasi", "bogor", "denpasar", "malang"]

/-- A JavaScript regex word character (`\w`). -/
def isWordChar (c : Char) : Bool :=
  ('a' ≤ c ∧ c ≤ 'z') ∨ ('A' ≤ c ∧ c ≤ 'Z') ∨ ('0' ≤ c ∧ c ≤ '9') ∨ c = '_'

/-- A character of the capture class `[A-Za-zÀ-ſ' -]` of the
city regex. -/
def cityNameChar (c : Char) : Bool :=
  ('A' ≤ c ∧ c ≤ 'Z') ∨ ('a' ≤ c ∧ c ≤ 'z') ∨
  ('À' ≤ c ∧ c ≤ 'ſ') ∨ c = '\'' ∨ c = ' ' ∨ c = '-'

/-- ASCII lower-casing of one character (for the regex `i` flag). -/
def lowerChar (c : Char) : Char :=
  if 'A' ≤ c ∧ c ≤ 'Z' then Char.ofNat (c.toNat + 32) else c

/-- Case-insensitive literal match; on success returns the rest of the
input. -/
def matchKeywordAt : List Char → List Char → Option (List Char)
  | [], rest => some rest
  | _ :: _, [] => none
  | k :: kt, c :: ct => if lowerChar c = k then matchKeywordAt kt ct else none

/-- After a matched keyword: `\s+` (greedy, with backtracking) then
the greedy capture `([A-Za-zÀ-ſ' -]{3,40})`.  `k` counts the
whitespace characters currently consumed by `\s+`, starting at the
maximal run and retreating (a retreated character can still be
accepted by the capture class, which contains the space). -/
def tryWithWs (rest : List Char) : Nat → Option (List Char × List Char)
  | 0 => none
  | k + 1 =>
    let after := rest.drop (k + 1)
    let nameRun := (after.takeWhile cityNameChar).take 40
    if nameRun.length ≥ 3 then some (nameRun, after.drop nameRun.length)
    else tryWithWs rest k

/-- The alternation `(?:kota|kabupaten|di|di kota)`, tried
left-to-right. -/
def cityAlternatives : List (List Char) :=
  ["kota".data, "kabupaten".data, "di".data, "di kota".data]

/-- One attempt of the city regex at the current position.  `prev` is
the preceding character (for the `\b` assertion: since every
alternative starts with a letter, the boundary holds exactly when the
preceding character is absent or not a word character). -/
def tryCityMatchAt (prev : Option Char) (cs : List Char) :
    Option (List Char × List Char) :=
  if (prev.map isWordChar).getD false then none
  else
    cityAlternatives.findSome? fun kw =>
      match matchKeywordAt kw cs with
      | none => none
      | some rest => tryWithWs rest (rest.takeWhile jsWhitespace).length

/-- The `while ((match = cityRegex.exec(textLower)) !== null)` loop:
scan left to right; on a match, record the capture and resume after
the whole match; otherwise advance one character. -/
def cityRegexScanGo : Nat → Option Char → List Char → List (List Char)
  | 0, _, _ => []
  | _ + 1, _, [] => []
  | fuel + 1, prev, c :: rest =>
    match tryCityMatchAt prev (c :: rest) with
    | some (capture, after) =>
      capture :: cityRegexScanGo fuel capture.getLast? after
    | none => cityRegexScanGo fuel (some c) rest

/-- All captures of the city regex
`/\b(?:kota|kabupaten|di|di kota)\s+([A-Za-zÀ-ſ' -]{3,40})/gi`
over `s`. -/
def cityRegexCaptures (s : String) : List String :=
  (cityRegexScanGo s.data.length none s.data).map String.mk

/-- `extractLocations(text)` (lines 456–492): collect known city names
occurring as substrings of the lower-cased text, then the trimmed
captures of the city regex, deduplicated in insertion order. -/
def extractLocations (text : String) : List String :=
  let tl := asciiToLower text
  let fromList := knownLocations.filter fun loc => strIncludes tl loc
  let fromRegex := (cityRegexCaptures tl).map jsTrim
  jsSetDedup (fromList ++ fromRegex)

/-- The object the fallback branch of `extractLocationEntities`
passes to `_normalizeEntities` (lines 302–306). -/
def fallbackRaw (text : String) : JsonValue :=
  .jobj [("place_names", .jarr []),
         ("place_types", .jarr ((extractPlaceTypes text).map .jstr)),
         ("locations", .jarr ((extractLocations text).map .jstr))]

/-- `extractLocationEntities(text)` (lines 257–308).  `llmOutcome` is
the outcome of the strict-JSON `generateResponse` call.  Any throw in
the `try` block — a failed LLM call, an unparseable output, or a
`TypeError` while normalizing the parsed output — lands in the `catch`
and produces the deterministic fallback.  An `.error` result would
mean a throw inside the `catch` block itself (which provably cannot
happen — the fallback object contains only strings). -/
def extractLocationEntities (llmOutcome : Except String String)
    (text : String) : Except Unit Entities :=
  match llmOutcome with
  | .ok raw =>
    match attemptParseJson raw with
    | .ok parsed =>
      match normalizeEntities parsed with
      | .ok e => .ok e
      | .error _ => normalizeEntities (fallbackRaw text)
    | .error _ => normalizeEntities (fallbackRaw text)
  | .error _ => normalizeEntities (fallbackRaw text)

/-- Whether a token starts with an ASCII capital letter. -/
def startsCapital (t : String) : Bool :=
  match t.data with
  | c :: _ => 'A' ≤ c ∧ c ≤ 'Z'
  | [] => false

/-- Split on single spaces (`text.split(" ")`), structurally over the
character list so the kernel can evaluate it. -/
def splitOnSpaceGo (cur : List Char) : List Char → List String
  | [] => [String.mk cur.reverse]
  | c :: rest =>
    if c = ' ' then String.mk cur.reverse :: splitOnSpaceGo [] rest
    else splitOnSpaceGo (c :: cur) rest

/-- Group maximal runs of capitalized tokens into phrases. -/
def capPhrasesGo (cur : List String) : List String → List String
  | [] => if cur = [] then [] else [String.intercalate " " cur.reverse]
  | t :: rest =>
    if startsCapital t then capPhrasesGo (t :: cur) rest
    else if cur = [] then capPhrasesGo [] rest
    else String.intercalate " " cur.reverse :: capPhrasesGo [] rest

/-- Modelled from the spec: the "capitalized-phrase regex heuristic
for place names (must not exceed ~6 results)" that the specification
says the deterministic fallback applies.  No such heuristic exists in
`llmService.js` (the fallback always passes `place_names: []`); this
definition follows the spec's words so the two can be compared:
maximal runs of capitalized words, capped at 6 phrases. -/
def specCapitalizedPhrases (text : String) : List String :=
  (capPhrasesGo [] (splitOnSpaceGo [] text.data)).take 6

end LlmService

/-! ## Place provider adapter (`backend/src/services/mapsService.js`)

The Google Maps client is an external HTTP call; each service method
receives its response (`response.data.results`) as an oracle.  Raw
provider fields that may be absent are `Option`. -/

namespace MapsService

/-- `place.geometry?.location`. -/
structure RawLocation where
  lat : Option Int
  lng : Option Int
deriving Repr, DecidableEq

/-- `place.opening_hours`. -/
structure RawOpeningHours where
  open_now : Option Bool
deriving Repr, DecidableEq

/-- A raw place object from the provider response, restricted to the
fields `formatPlace` reads. -/
structure RawPlace where
  place_id : Option String
  name : Option String
  formatted_address : Option String
  vicinity : Option String
  geometry_location : Option RawLocation
  rating : Option Int
  user_ratings_total : Option Int
  types : Option (List String)
  opening_hours : Option RawOpeningHours
  price_level : Option Int
deriving Repr, DecidableEq

/-- A formatted place record (the object literal built by
`formatPlace`, lines 126–144). -/
structure Place where
  place_id : Option String
  name : Option String
  address : Option String
  lat : Option Int
  lng : Option Int
  rating : Option Int
  user_ratings_total : Option Int
  types : List String
  open_now : Option Bool
  price_level : Option Int
  maps_url : String
  directions_url : String
  embed_url : String
deriving Repr, DecidableEq

/-- A character `encodeURIComponent` leaves unescaped. -/
def uriUnreserved (c : Char) : Bool :=
  ('A' ≤ c ∧ c ≤ 'Z') ∨ ('a' ≤ c ∧ c ≤ 'z') ∨ ('0' ≤ c ∧ c ≤ '9') ∨
  c = '-' ∨ c = '_' ∨ c = '.' ∨ c = '!' ∨ c = '~' ∨ c = '*' ∨
  c = '\'' ∨ c = '(' ∨ c = ')'

/-- Uppercase hexadecimal digit. -/
def hexDigitUpper (n : Nat) : Char :=
  if n < 10 then Char.ofNat (48 + n) else Char.ofNat (55 + n)

/-- `encodeURIComponent(s)`: percent-encode the UTF-8 bytes of every
reserved character, uppercase hex. -/
def encodeURIComponent (s : String) : String :=
  ⟨s.data.flatMap fun c =>
    if uriUnreserved c then [c]
    else (utf8Char c).flatMap fun b =>
      ['%', hexDigitUpper (b / 16), hexDigitUpper (b % 16)]⟩

/-- Template-literal interpolation of a possibly-`undefined` number. -/
def jsNumStr (n : Option Int) : String :=
  match n with
  | none => "undefined"
  | some v => toString v

/-- String coercion of a possibly-`undefined` string. -/
def jsOptStr (s : Option String) : String := s.getD "undefined"

/-- `generateMapsUrl(lat, lng, name)` (lines 203–205). -/
def generateMapsUrl (lat lng : Option Int) (name : Option String) : String :=
  "https://www.google.com/maps/search/?api=1&query=" ++ jsNumStr lat ++
    "," ++ jsNumStr lng ++ "&query_place_name=" ++
    encodeURIComponent (jsOptStr name)

/-- `generateDirectionsUrl(lat, lng)` (lines 213–215). -/
def generateDirectionsUrl (lat lng : Option Int) : String :=
  "https://www.google.com/maps/dir/?api=1&destination=" ++ jsNumStr lat ++
    "," ++ jsNumStr lng

/-- `generateEmbedUrl(placeId)` (lines 222–224). -/
def generateEmbedUrl (apiKey : String) (placeId : Option String) : String :=
  "https://www.google.com/maps/embed/v1/place?key=" ++ apiKey ++
    "&q=place_id:" ++ jsOptStr placeId

/-- `a || b` over possibly-absent strings (an empty string is falsy,
so `formatted_address: ""` falls through to `vicinity`). -/
def jsOrOptStr (a b : Option String) : Option String :=
  match a with
  | some s => if s ≠ "" then some s else b
  | none => b

/-- `formatPlace(place)` (lines 126–144).  Note the `open_now` field:
`place.opening_hours?.open_now || null` yields `true` only when the
provider reported `true`; both `false` (closed) and an absent value
(unknown) collapse to `null`. -/
def formatPlace (apiKey : String) (place : RawPlace) : Place :=
  let location := place.geometry_location.getD ⟨none, none⟩
  { place_id := place.place_id
    name := place.name
    address := jsOrOptStr place.formatted_address place.vicinity
    lat := location.lat
    lng := location.lng
    rating := place.rating
    user_ratings_total := place.user_ratings_total
    types := place.types.getD []
    open_now :=
      match place.opening_hours.bind RawOpeningHours.open_now with
      | some true => some true
      | _ => none
    price_level := place.price_level
    maps_url := generateMapsUrl location.lat location.lng place.name
    directions_url := generateDirectionsUrl location.lat location.lng
    embed_url := generateEmbedUrl apiKey place.place_id }

/-- `searchPlaces` (lines 19–46): on success, format the first 5
results; any provider error degrades to `[]`. -/
def searchPlaces (apiKey : String)
    (response : Except String (List RawPlace)) : List Place :=
  match response with
  | .error _ => []
  | .ok results => (results.take 5).map (formatPlace apiKey)

/-- `nearbySearch` (lines 94–119): on success, format the first 5
results; any provider error degrades to `[]`. -/
def nearbySearch (apiKey : String)
    (response : Except String (List RawPlace)) : List Place :=
  match response with
  | .error _ => []
  | .ok results => (results.take 5).map (formatPlace apiKey)

end MapsService

/-! ## `JSON.stringify(·, null, 2)` (used to inline place lists into
narrative prompts) -/

namespace Json

/-- `JSON.stringify` escaping of one character. -/
def escapeJsonChar (c : Char) : List Char :=
  if c = '"' then ['\\', '"']
  else if c = '\\' then ['\\', '\\']
  else if c = '\n' then ['\\', 'n']
  else if c = '\x0d' then ['\\', 'r']
  else if c = '\t' then ['\\', 't']
  else if c = '\x08' then ['\\', 'b']
  else if c = '\x0c' then ['\\', 'f']
  else if c.toNat < 32 then '\\' :: 'u' :: '0' :: '0' :: MD5.byteHex c.toNat
  else [c]

/-- A JSON string literal. -/
def jsonQuote (s : String) : String :=
  ⟨'"' :: (s.data.flatMap escapeJsonChar ++ ['"'])⟩

/-- `JSON.stringify(v, null, 2)` at indentation `ind`. -/
def prettyGo : String → JsonValue → String
  | _, .jnull => "null"
  | _, .jbool true => "true"
  | _, .jbool false => "false"
  | _, .jnum lex => lex
  | _, .jstr s => jsonQuote s
  | _, .jarr [] => "[]"
  | ind, .jarr (x :: xs) =>
    "[\n" ++ String.intercalate ",\n" (arrItems ind (x :: xs)) ++
      "\n" ++ ind ++ "]"
  | _, .jobj [] => "\x7b\x7d"
  | ind, .jobj (f :: fs) =>
    "\x7b\n" ++ String.intercalate ",\n" (objItems ind (f :: fs)) ++
      "\n" ++ ind ++ "\x7d"
where
  arrItems (ind : String) : List JsonValue → List String
  | [] => []
  | x :: rest => (ind ++ "  " ++ prettyGo (ind ++ "  ") x) :: arrItems ind rest
  objItems (ind : String) : List (String × JsonValue) → List String
  | [] => []
  | (k, v) :: rest =>
    (ind ++ "  " ++ jsonQuote k ++ ": " ++ prettyGo (ind ++ "  ") v) ::
      objItems ind rest

/-- `JSON.stringify(v, null, 2)`. -/
def prettyStringify (v : JsonValue) : String := prettyGo "" v

end Json

/-- The JSON object `JSON.stringify` sees for a formatted place:
fields holding `undefined` are omitted; `open_now` is always present
(its value is `true` or `null`). -/
def placeToJson (p : MapsService.Place) : JsonValue :=
  .jobj (([
    ("place_id", p.place_id.map .jstr),
    ("name", p.name.map .jstr),
    ("address", p.address.map .jstr),
    ("lat", p.lat.map fun n => .jnum (toString n)),
    ("lng", p.lng.map fun n => .jnum (toString n)),
    ("rating", p.rating.map fun n => .jnum (toString n)),
    ("user_ratings_total", p.user_ratings_total.map fun n => .jnum (toString n)),
    ("types", some (.jarr (p.types.map .jstr))),
    ("open_now", some (match p.open_now with
      | some b => .jbool b
      | none => .jnull)),
    ("price_level", p.price_level.map fun n => .jnum (toString n)),
    ("maps_url", some (.jstr p.maps_url)),
    ("directions_url", some (.jstr p.directions_url)),
    ("embed_url", some (.jstr p.embed_url))] :
      List (String × Option JsonValue)).filterMap
    fun kv => kv.2.map fun v => (kv.1, v))

/-- `JSON.stringify(limitedPlaces, null, 2)`. -/
def prettyStringifyPlaces (ps : List MapsService.Place) : String :=
  Json.prettyStringify (.jarr (ps.map placeToJson))

/-! ## Narrative prompts -/

namespace LlmService

/-- The "no results" prompt of
`findPlacesAndGenerateNarrativeWithRAG` (llmService.js line 215). -/
def noResultsPrompt (userPrompt : String) : String :=
  "Berikan tanggapan yang ramah kepada pengguna bahwa tidak ada tempat yang ditemukan untuk permintaan mereka: \"" ++
    userPrompt ++ "\"."

/-- The system prompt of the "no results" narrative call (line 218). -/
def noResultsSystem : String :=
  "Kamu adalah asisten rekomendasi yang ramah dan membantu."

/-- The summary prompt of `findPlacesAndGenerateNarrativeWithRAG`
(lines 227–234), a template literal with the limited place list
inlined via `JSON.stringify(limitedPlaces, null, 2)`. -/
def ragSummaryPrompt (limitedPlaces : List MapsService.Place) : String :=
  "\n        Berdasarkan daftar tempat berikut, berikan ringkasan yang menarik dan singkat dalam Bahasa Indonesia.\n        Fokus pada rekomendasi utama, mengapa tempat tersebut menonjol (misalnya, peringkat tinggi, banyak ulasan), atau hubungan antar tempat (misalnya, \"ada beberapa pilihan kafe yang cocok untuk kerja\").\n        Jangan ulangi nama tempat, alamat, atau link. Cukup berikan ringkasan yang cerdas untuk membantu pengguna menafsirkan daftar di bawah ini.\n        \n        Daftar tempat:\n        " ++
    prettyStringifyPlaces limitedPlaces ++ "\n      "

/-- The system prompt of the RAG summary narrative call (line 239). -/
def ragSummarySystem : String :=
  "You are a friendly and helpful Indonesian travel & food recommendation assistant."

/-- `findPlacesAndGenerateNarrativeWithRAG(userPrompt, userLocation,
maxResults)` (llmService.js lines 177–250).  Returns the result
(`.error` = the method threw) paired with the number of narrative
`generateResponse` calls issued (the entity-extraction call has its
own oracle).  `provider` maps the built maps query to the raw
text-search response; `narrate prompt system` is the narrative
generation oracle. -/
def findPlacesAndGenerateNarrativeWithRAG (apiKey : String)
    (llmExtract : Except String String)
    (provider : String → Except String (List MapsService.RawPlace))
    (narrate : String → String → Except String String)
    (userPrompt : String) (maxResults : Nat) :
    Except String (String × List MapsService.Place) × Nat :=
  match extractLocationEntities llmExtract userPrompt with
  | .error _ => (.error "TypeError", 0)
  | .ok entities =>
    let searchKeywords :=
      if entities.place_types.length > 0 then
        String.intercalate " " entities.place_types
      else userPrompt
    let searchLocation := String.intercalate " " entities.locations
    let mapsQuery := jsTrim (searchKeywords ++ " " ++ searchLocation)
    let places := MapsService.searchPlaces apiKey (provider mapsQuery)
    if places.isEmpty then
      match narrate (noResultsPrompt userPrompt) noResultsSystem with
      | .error e => (.error e, 1)
      | .ok text => (.ok (text, []), 1)
    else
      let limitedPlaces := places.take maxResults
      match narrate (ragSummaryPrompt limitedPlaces) ragSummarySystem with
      | .error e => (.error e, 1)
      | .ok text => (.ok (text, limitedPlaces), 1)

end LlmService

/-! ## Query orchestrator
(`backend/src/controllers/queryController.js`, the controller wired to
`/api/query` by `routes/queryRoutes.js`) -/

namespace QueryController

/-- The success payload (`responseData`, lines 74–80): the shape of a
serialized `QueryResult`. -/
structure QueryResult where
  llm_text : String
  places : List MapsService.Place
  request_id : String
  cached : Bool
  processing_time : Nat
deriving Repr, DecidableEq

/-- The terminal HTTP responses `processQuery` can produce. -/
inductive ProcResponse where
  | success (result : QueryResult)
  | notFound (err : String) (request_id : String)
  | serverError (err : String) (request_id : String)
deriving Repr, DecidableEq

/-- The summary prompt of the wired controller (queryController.js
lines 63–68). -/
def controllerSummaryPrompt (limitedPlaces : List MapsService.Place) : String :=
  "\n      Buat deskripsi singkat yang ramah dan informatif untuk user, berdasarkan daftar tempat berikut:\n      " ++
    prettyStringifyPlaces limitedPlaces ++
    "\n      Gunakan bahasa yang sama dengan query asli.\n      Jangan menambahkan tempat baru yang tidak ada di daftar.\n    "

/-- The system prompt of the controller's narrative call (line 71). -/
def controllerSummarySystem : String :=
  "You are a friendly travel & food recommendation assistant."

/-- The cache-miss flow of `processQuery` (lines 31–96): extract
entities, build the maps query, search, 404 on an empty result,
otherwise truncate, narrate and respond.  Returns the response paired
with the number of narrative `generateResponse` calls. -/
def processQueryMain (requestId : String) (elapsedDone : Nat)
    (apiKey : String) (llmExtract : Except String String)
    (provider : String → Except String (List MapsService.RawPlace))
    (narrate : String → String → Except String String)
    (prompt : String) (maxResults : Nat) : ProcResponse × Nat :=
  match LlmService.extractLocationEntities llmExtract prompt with
  | .error _ => (.serverError "Failed to process query" requestId, 0)
  | .ok entities =>
    let searchKeywords :=
      if entities.place_types.length > 0 then
        String.intercalate " " entities.place_types
      else prompt
    let searchLocation := String.intercalate " " entities.locations
    let mapsQuery := jsTrim (searchKeywords ++ " " ++ searchLocation)
    let places := MapsService.searchPlaces apiKey (provider mapsQuery)
    if places.isEmpty then
      (.notFound "No places found" requestId, 0)
    else
      let limitedPlaces := places.take maxResults
      match
        narrate (controllerSummaryPrompt limitedPlaces)
          controllerSummarySystem
      with
      | .error _ => (.serverError "Failed to process query" requestId, 1)
      | .ok text =>
        (.success { llm_text := text, places := limitedPlaces,
                    request_id := requestId, cached := false,
                    processing_time := elapsedDone }, 1)

/-- `processQuery(req, res)` (lines 6–97).  `requestId` is the
`req_${Date.now()}` identifier generated at the start; `elapsedHit` /
`elapsedDone` are the `Date.now() - startTime` values at the two
response points.  `cacheHit` is the deserialized result of
`cacheService.get(prompt, JSON.stringify(user_location))` (`none` for
a miss, a store error, or a value that failed to deserialize — the
cache layer converts all of those into `null`).  On a hit the cached
object is spread and its `cached`, `request_id` and `processing_time`
members are overwritten.  The cache write on the success path returns
a boolean that the controller ignores. -/
def processQuery (requestId : String) (elapsedHit elapsedDone : Nat)
    (apiKey : String) (cacheHit : Option QueryResult)
    (llmExtract : Except String String)
    (provider : String → Except String (List MapsService.RawPlace))
    (narrate : String → String → Except String String)
    (prompt : String) (maxResults : Nat) (useCache : Bool) :
    ProcResponse × Nat :=
  if useCache then
    match cacheHit with
    | some cached =>
      (.success { cached with
        cached := true
        request_id := requestId
        processing_time := elapsedHit }, 0)
    | none =>
      processQueryMain requestId elapsedDone apiKey llmExtract provider
        narrate prompt maxResults
  else
    processQueryMain requestId elapsedDone apiKey llmExtract provider
      narrate prompt maxResults

/-- The terminal responses of the `nearbySearch` controller. -/
inductive NearbyResponse where
  | success (places : List MapsService.Place) (total : Nat)
  | badRequest (err : String)
deriving Repr, DecidableEq

/-- `nearbySearch(req, res)` (lines 123–148): reject a falsy
`location` or `place_type` with a 400 before any provider call;
otherwise call the provider and respond with the formatted places and
their count.  Returns the response paired with the number of provider
calls. -/
def nearbySearchController (apiKey : String)
    (provider : Except String (List MapsService.RawPlace))
    (location : Option (Int × Int)) (placeType : Option String) :
    NearbyResponse × Nat :=
  if location = none ∨ placeType = none ∨ placeType = some "" then
    (.badRequest "Location and place_type are required", 0)
  else
    let results := MapsService.nearbySearch apiKey provider
    (.success results results.length, 1)

end QueryController

/-! ## Concrete fixtures -/

/-- A raw provider place reported as currently closed
(`opening_hours.open_now = false`). -/
def c3ClosedRaw : MapsService.RawPlace :=
  { place_id := some "p1", name := some "Warung Tutup",
    formatted_address := some "Jl. A No. 1", vicinity := none,
    geometry_location := some ⟨some 1, some 2⟩,
    rating := some 4, user_ratings_total := some 10,
    types := some ["restaurant"],
    opening_hours := some ⟨some false⟩, price_level := some 2 }

/-- The same place with an unknown open state
(`opening_hours` present, `open_now` absent). -/
def c3UnknownRaw : MapsService.RawPlace :=
  { c3ClosedRaw with opening_hours := some ⟨none⟩ }

/-- The same place with `opening_hours` absent entirely. -/
def c3NoHoursRaw : MapsService.RawPlace :=
  { c3ClosedRaw with opening_hours := none }

/-- The same place reported as currently open. -/
def c3OpenRaw : MapsService.RawPlace :=
  { c3ClosedRaw with opening_hours := some ⟨some true⟩ }

/-! ## Supporting lemmas -/

namespace LlmService

/-- Normalizing a string-valued place type never raises. -/
theorem normalizePlaceType_jstr_ok (s : String) :
    ∃ v, normalizePlaceType (.jstr s) = .ok v := by
  unfold normalizePlaceType
  split
  · exact ⟨none, rfl⟩
  · rcases hf : (placeTypeSynonyms.find? fun p =>
      p.1 = jsTrim (asciiToLower s)).map Prod.snd with _ | m
    · exact ⟨some (jsTrim (asciiToLower s)), by simp [hf]⟩
    · exact ⟨some m, by simp [hf]⟩

/-- Normalizing a list of string-valued place types never raises. -/
theorem mapNormalizePT_strings (ss : List String) :
    ∃ vs, mapNormalizePT (ss.map JsonValue.jstr) = .ok vs := by
  induction ss with
  | nil => exact ⟨[], rfl⟩
  | cons s rest ih =>
    obtain ⟨v, hv⟩ := normalizePlaceType_jstr_ok s
    obtain ⟨vs, hvs⟩ := ih
    exact ⟨v :: vs, by simp [mapNormalizePT, hv, hvs]⟩

/-- The value of the normalizer on an object whose place types
normalize without raising. -/
theorem normalizeEntities_jobj_ok (fs : List (String × JsonValue))
    (vs : List (Option String))
    (hvs : mapNormalizePT (fieldArray (.jobj fs) "place_types") = .ok vs) :
    normalizeEntities (.jobj fs) =
      .ok { place_names := jsSetDedup
              (((fieldArray (.jobj fs) "place_names").map fun p =>
                jsTrim (jsToString p)).filter (· ≠ "")),
            place_types := jsSetDedup ((vs.filterMap id).filter (· ≠ "")),
            locations := jsSetDedup
              (((fieldArray (.jobj fs) "locations").map fun l =>
                jsTrim (asciiToLower (jsToString l))).filter (· ≠ "")) } := by
  unfold normalizeEntities
  simp only [hvs]

/-- The value of the normalizer on an object whose place types raise
a `TypeError`. -/
theorem normalizeEntities_jobj_err (fs : List (String × JsonValue))
    (u : Unit)
    (hu : mapNormalizePT (fieldArray (.jobj fs) "place_types") = .error u) :
    normalizeEntities (.jobj fs) = .error u := by
  unfold normalizeEntities
  simp only [hu]

/-- The fallback object normalizes without raising, and its
`place_names` are empty. -/
theorem normalizeEntities_fallback_ok (text : String) :
    ∃ e, normalizeEntities (fallbackRaw text) = .ok e ∧ e.place_names = [] := by
  obtain ⟨vs, hvs⟩ := mapNormalizePT_strings (extractPlaceTypes text)
  exact ⟨_, normalizeEntities_jobj_ok
    [("place_names", .jarr []),
     ("place_types", .jarr ((extractPlaceTypes text).map .jstr)),
     ("locations", .jarr ((extractLocations text).map .jstr))] vs hvs, rfl⟩

/-- Every `.ok` result of the normalizer has deduplicated fields. -/
theorem normalizeEntities_ok_nodup (raw : JsonValue) (e : Entities)
    (h : normalizeEntities raw = .ok e) :
    e.place_names.Nodup ∧ e.place_types.Nodup ∧ e.locations.Nodup := by
  cases raw with
  | jobj fs =>
    rcases hm : mapNormalizePT (fieldArray (.jobj fs) "place_types") with u | vs
    · rw [normalizeEntities_jobj_err fs u hm] at h
      exact absurd h (by simp)
    · rw [normalizeEntities_jobj_ok fs vs hm] at h
      obtain rfl := Except.ok.inj h
      exact ⟨jsSetDedup_nodup _, jsSetDedup_nodup _, jsSetDedup_nodup _⟩
  | jarr xs =>
    obtain rfl : (⟨[], [], []⟩ : Entities) = e := Except.ok.inj h
    exact ⟨List.nodup_nil, List.nodup_nil, List.nodup_nil⟩
  | jnull =>
    obtain rfl : (⟨[], [], []⟩ : Entities) = e := Except.ok.inj h
    exact ⟨List.nodup_nil, List.nodup_nil, List.nodup_nil⟩
  | jbool b =>
    obtain rfl : (⟨[], [], []⟩ : Entities) = e := Except.ok.inj h
    exact ⟨List.nodup_nil, List.nodup_nil, List.nodup_nil⟩
  | jnum lex =>
    obtain rfl : (⟨[], [], []⟩ : Entities) = e := Except.ok.inj h
    exact ⟨List.nodup_nil, List.nodup_nil, List.nodup_nil⟩
  | jstr s =>
    obtain rfl : (⟨[], [], []⟩ : Entities) = e := Except.ok.inj h
    exact ⟨List.nodup_nil, List.nodup_nil, List.nodup_nil⟩

/-- The extractor always succeeds, and its result is an `.ok` result
of the normalizer. -/
theorem extract_normalized (o : Except String String) (t : String) :
    ∃ raw e, extractLocationEntities o t = .ok e ∧
      normalizeEntities raw = .ok e := by
  cases o with
  | error err =>
    obtain ⟨e, he, _⟩ := normalizeEntities_fallback_ok t
    exact ⟨fallbackRaw t, e, he, he⟩
  | ok rawStr =>
    rcases hp : attemptParseJson rawStr with pe | parsed
    · obtain ⟨e, he, _⟩ := normalizeEntities_fallback_ok t
      exact ⟨fallbackRaw t, e, by simp [extractLocationEntities, hp, he], he⟩
    · rcases hn : normalizeEntities parsed with u | e
      · obtain ⟨e, he, _⟩ := normalizeEntities_fallback_ok t
        exact ⟨fallbackRaw t, e, by simp [extractLocationEntities, hp, hn, he], he⟩
      · exact ⟨parsed, e, by simp [extractLocationEntities, hp, hn], hn⟩

/-- When a member is absent or not an array, the corresponding branch
sees the empty list. -/
theorem fieldArray_eq_nil (fs : List (String × JsonValue)) (key : String)
    (h : ∀ xs, Json.lookupLast fs key ≠ some (.jarr xs)) :
    fieldArray (.jobj fs) key = [] := by
  unfold fieldArray
  rcases hl : Json.lookupLast fs key with _ | v
  · simp [hl]
  · cases v <;> first
      | exact absurd hl (h _)
      | simp [hl]

end LlmService

/-! ## The claims -/

/-- C1 (counterexample): the claim states a cache hit leaves
`request_id` unchanged from the originally cached value; but
`processQuery` overwrites it with the fresh request id: a cached
result stored with `request_id = "req_1"`, served in a request whose
id is `"req_2"`, comes back with `request_id = "req_2"`. -/
theorem C1_counterexample :
    QueryController.processQuery "req_2" 3 99 "KEY"
      (some { llm_text := "hello", places := [], request_id := "req_1",
              cached := false, processing_time := 5 })
      (.error "llm down") (fun _ => .error "maps down")
      (fun _ _ => .error "llm down") "warung bandung" 5 true =
      (.success { llm_text := "hello", places := [], request_id := "req_2",
                  cached := true, processing_time := 3 }, 0) ∧
    ("req_2" : String) ≠ "req_1" :=
  ⟨rfl, by decide⟩

/-- C1 (amended): for every query with `use_cache = true` that hits
the cache, the response equals the cached `QueryResult` in `llm_text`
and `places`, while `cached` (set to `true`), `processing_time` and
`request_id` are the fields recomputed fresh; no later pipeline stage
(in particular no narrative call) runs. -/
theorem C1_amended (c : QueryController.QueryResult)
    (requestId : String) (elapsedHit elapsedDone : Nat) (apiKey : String)
    (llmExtract : Except String String)
    (provider : String → Except String (List MapsService.RawPlace))
    (narrate : String → String → Except String String)
    (prompt : String) (maxResults : Nat) :
    QueryController.processQuery requestId elapsedHit elapsedDone apiKey
      (some c) llmExtract provider narrate prompt maxResults true =
      (.success { llm_text := c.llm_text, places := c.places,
                  request_id := requestId, cached := true,
                  processing_time := elapsedHit }, 0) :=
  rfl

/-- C2 (counterexample): on a cache miss whose provider search returns
zero results, the controller wired to `/api/query` makes zero
narrative-generator calls and answers with the 404 error payload
instead of returning a "no results" narrative. -/
theorem C2_counterexample :
    QueryController.processQuery "req_1" 0 7 "KEY" none (.error "llm down")
      (fun _ => .ok []) (fun p _ => .ok ("narrative: " ++ p))
      "warung bandung" 5 true =
      (.notFound "No places found" "req_1", 0) :=
  rfl

/-- C2 (amended): the RAG service method
`findPlacesAndGenerateNarrativeWithRAG` does handle zero provider
results by calling the narrative generator with the distinct
"no results" prompt and returning early with that narrative and an
empty place list; but the controller wired to `/api/query` does not
call that method: on zero results it skips narrative generation and
returns the 404 "No places found" error.  The "no results" prompt is
distinct from the summary prompt. -/
theorem C2_amended :
    (∀ (apiKey : String) (llmExtract : Except String String)
        (provider : String → Except String (List MapsService.RawPlace))
        (narrate : String → String → Except String String)
        (userPrompt : String) (maxResults : Nat),
      (∀ q, provider q = .ok []) →
      LlmService.findPlacesAndGenerateNarrativeWithRAG apiKey llmExtract
          provider narrate userPrompt maxResults =
        ((narrate (LlmService.noResultsPrompt userPrompt)
            LlmService.noResultsSystem).map fun t => (t, []), 1)) ∧
    (∀ (requestId : String) (eh ed : Nat) (apiKey : String)
        (llmExtract : Except String String)
        (provider : String → Except String (List MapsService.RawPlace))
        (narrate : String → String → Except String String)
        (prompt : String) (maxResults : Nat) (useCache : Bool),
      (∀ q, provider q = .ok []) →
      QueryController.processQuery requestId eh ed apiKey none llmExtract
          provider narrate prompt maxResults useCache =
        (.notFound "No places found" requestId, 0)) ∧
    LlmService.noResultsPrompt "warung" ≠ LlmService.ragSummaryPrompt [] := by
  refine ⟨?_, ?_, by decide⟩
  · intro apiKey llmExtract provider narrate userPrompt maxResults hq
    obtain ⟨raw, e, he, _⟩ := LlmService.extract_normalized llmExtract userPrompt
    rcases hn : narrate (LlmService.noResultsPrompt userPrompt)
      LlmService.noResultsSystem with err | t <;>
      simp [LlmService.findPlacesAndGenerateNarrativeWithRAG, he, hq,
        MapsService.searchPlaces, hn, Except.map]
  · intro requestId eh ed apiKey llmExtract provider narrate prompt
      maxResults useCache hq
    obtain ⟨raw, e, he, _⟩ := LlmService.extract_normalized llmExtract prompt
    cases useCache <;>
      simp [QueryController.processQuery, QueryController.processQueryMain,
        he, hq, MapsService.searchPlaces]

/-- C2 (witness): the amended theorem at a concrete input — LLM
unreachable, provider empty — yields the "no results" narrative path
of the RAG method. -/
theorem C2_witness :
    LlmService.findPlacesAndGenerateNarrativeWithRAG "KEY" (.error "down")
      (fun _ => .ok []) (fun p _ => .ok p) "warung" 5 =
      ((Except.ok (LlmService.noResultsPrompt "warung") :
          Except String String).map
        fun t => (t, ([] : List MapsService.Place)), 1) :=
  C2_amended.1 "KEY" (.error "down") (fun _ => .ok []) (fun p _ => .ok p)
    "warung" 5 (fun _ => rfl)

/-- C3: evaluating `formatPlace` at the failing input — a provider
place reported closed (`open_now: false`) — yields `open_now = null`,
indistinguishable from both unknown shapes, while an open place stays
`true`: `place.opening_hours?.open_now || null` collapses the closed
state into unknown, so the formatted record is not a faithful
tri-state. -/
theorem C3_open_now_conflated :
    (MapsService.formatPlace "KEY" c3ClosedRaw).open_now = none ∧
    (MapsService.formatPlace "KEY" c3UnknownRaw).open_now = none ∧
    (MapsService.formatPlace "KEY" c3NoHoursRaw).open_now = none ∧
    (MapsService.formatPlace "KEY" c3OpenRaw).open_now = some true := by
  refine ⟨rfl, rfl, rfl, rfl⟩

/-- C4 (counterexample): on the raw output `x {"a": 1}` the direct
parse fails and the implemented whole-string fixups cannot help, so
`_attemptParseJson` throws; the balanced-brace substring scan the
claim describes would have recovered the object — the implemented
strategy chain is not the claimed one. -/
theorem C4_counterexample :
    LlmService.attemptParseJson "x \x7b\"a\": 1\x7d" =
      .error "Unable to parse JSON from LLM response even after aggressive cleanup." ∧
    LlmService.specAttemptParseJson "x \x7b\"a\": 1\x7d" =
      .ok (.jobj [("a", .jnum "1")]) :=
  ⟨rfl, rfl⟩

/-- C4 (amended): `_attemptParseJson` processes raw LLM output by this
ordered chain: reject empty input; strip markdown code fences; attempt
a direct `JSON.parse`; on failure straighten curly quotes, replace
single with double quotes and remove trailing commas — applied to the
whole cleaned string, with no balanced-brace substring scan — and
re-parse once; a second failure throws. -/
theorem C4_amended (s : String) (h : s ≠ "") :
    LlmService.attemptParseJson s =
      match Json.jsonParse (LlmService.stripFences s) with
      | .ok v => .ok v
      | .error _ =>
        match Json.jsonParse (LlmService.removeTrailingCommas
            (LlmService.singleToDouble (LlmService.replaceCurlyQuotes
              (LlmService.stripFences s)))) with
        | .ok v => .ok v
        | .error _ =>
          .error "Unable to parse JSON from LLM response even after aggressive cleanup." := by
  unfold LlmService.attemptParseJson
  rw [if_neg h]

/-- C4 (witness): the amended chain at the concrete input
`{'a': 1,}`: the direct parse fails, the quote/comma fixups make it
parse. -/
theorem C4_witness :
    ("\x7b\x27a\x27: 1,\x7d" : String) ≠ "" ∧
    LlmService.attemptParseJson "\x7b\x27a\x27: 1,\x7d" =
      match Json.jsonParse (LlmService.stripFences "\x7b\x27a\x27: 1,\x7d") with
      | .ok v => .ok v
      | .error _ =>
        match Json.jsonParse (LlmService.removeTrailingCommas
            (LlmService.singleToDouble (LlmService.replaceCurlyQuotes
              (LlmService.stripFences "\x7b\x27a\x27: 1,\x7d")))) with
        | .ok v => .ok v
        | .error _ =>
          .error "Unable to parse JSON from LLM response even after aggressive cleanup." :=
  ⟨by decide, C4_amended "\x7b\x27a\x27: 1,\x7d" (by decide)⟩

/-- C5 (counterexample): with the LLM unreachable, the fallback for
`"Ayam Bakar Pak Atok di Bandung"` returns an empty `place_names`
even though the text contains capitalized phrases (the heuristic the
claim describes would produce two): no capitalized-phrase heuristic
runs in the fallback. -/
theorem C5_counterexample :
    LlmService.extractLocationEntities (.error "ECONNREFUSED")
        "Ayam Bakar Pak Atok di Bandung" =
      .ok ⟨[], [], ["bandung"]⟩ ∧
    LlmService.specCapitalizedPhrases "Ayam Bakar Pak Atok di Bandung" =
      ["Ayam Bakar Pak Atok", "Bandung"] :=
  ⟨rfl, rfl⟩

/-- C5 (amended): on total LLM failure — call error, or output
unparseable after the implemented repair attempts — `extract` falls
back to the same normalization step applied to the deterministic
object built from the fixed place-type keyword table
(`extractPlaceTypes`) and the fixed city list plus city regex
(`extractLocations`), with `place_names` always the empty array: no
capitalized-phrase heuristic and no ~6-result bound exist. -/
theorem C5_amended (text : String) :
    (∀ err, LlmService.extractLocationEntities (.error err) text =
      LlmService.normalizeEntities (LlmService.fallbackRaw text)) ∧
    (∀ raw pe, LlmService.attemptParseJson raw = .error pe →
      LlmService.extractLocationEntities (.ok raw) text =
        LlmService.normalizeEntities (LlmService.fallbackRaw text)) ∧
    (∀ e, LlmService.normalizeEntities (LlmService.fallbackRaw text) = .ok e →
      e.place_names = []) := by
  refine ⟨fun err => rfl, fun raw pe hp => ?_, fun e he => ?_⟩
  · simp [LlmService.extractLocationEntities, hp]
  · obtain ⟨e2, he2, hpn⟩ := LlmService.normalizeEntities_fallback_ok text
    rw [he2] at he
    obtain rfl := Except.ok.inj he
    exact hpn

/-- C5 (witness): the amended theorem at a concrete input — an
unparseable LLM output over the prompt `"warung di Bandung"` takes
the fallback. -/
theorem C5_witness :
    LlmService.attemptParseJson "garbage" =
      .error "Unable to parse JSON from LLM response even after aggressive cleanup." ∧
    LlmService.extractLocationEntities (.ok "garbage") "warung di Bandung" =
      LlmService.normalizeEntities (LlmService.fallbackRaw "warung di Bandung") :=
  ⟨rfl, (C5_amended "warung di Bandung").2.1 "garbage"
    "Unable to parse JSON from LLM response even after aggressive cleanup." rfl⟩


/-- C6: for every input string and every outcome of the LLM call,
`extractLocationEntities` returns (never throws) a structure with the
three array fields `place_names`, `place_types`, `locations`, each
free of duplicates; and in the normalizer, a member of the parsed
output that is absent or not an array is silently coerced to the
empty array. -/
theorem C6_extract_total_normalized :
    (∀ (llmOutcome : Except String String) (text : String),
      ∃ e, LlmService.extractLocationEntities llmOutcome text = .ok e ∧
        e.place_names.Nodup ∧ e.place_types.Nodup ∧ e.locations.Nodup) ∧
    (∀ (fs : List (String × JsonValue)) (e : LlmService.Entities),
      LlmService.normalizeEntities (.jobj fs) = .ok e →
      ((∀ xs, Json.lookupLast fs "place_names" ≠ some (.jarr xs)) →
        e.place_names = []) ∧
      ((∀ xs, Json.lookupLast fs "place_types" ≠ some (.jarr xs)) →
        e.place_types = []) ∧
      ((∀ xs, Json.lookupLast fs "locations" ≠ some (.jarr xs)) →
        e.locations = [])) := by
  constructor
  · intro o t
    obtain ⟨raw, e, he, hn⟩ := LlmService.extract_normalized o t
    exact ⟨e, he, LlmService.normalizeEntities_ok_nodup raw e hn⟩
  · intro fs e h
    refine ⟨fun hna => ?_, fun hna => ?_, fun hna => ?_⟩
    · have hf := LlmService.fieldArray_eq_nil fs "place_names" hna
      rcases hm : LlmService.mapNormalizePT
        (LlmService.fieldArray (.jobj fs) "place_types") with u | vs
      · rw [LlmService.normalizeEntities_jobj_err fs u hm] at h
        exact absurd h (by simp)
      · rw [LlmService.normalizeEntities_jobj_ok fs vs hm] at h
        obtain rfl := Except.ok.inj h
        show jsSetDedup (((LlmService.fieldArray (.jobj fs) "place_names").map
          fun p => jsTrim (jsToString p)).filter (· ≠ "")) = []
        rw [hf]
        rfl
    · have hf := LlmService.fieldArray_eq_nil fs "place_types" hna
      have hm : LlmService.mapNormalizePT
          (LlmService.fieldArray (.jobj fs) "place_types") = .ok [] := by
        rw [hf]
        rfl
      rw [LlmService.normalizeEntities_jobj_ok fs [] hm] at h
      obtain rfl := Except.ok.inj h
      rfl
    · have hf := LlmService.fieldArray_eq_nil fs "locations" hna
      rcases hm : LlmService.mapNormalizePT
        (LlmService.fieldArray (.jobj fs) "place_types") with u | vs
      · rw [LlmService.normalizeEntities_jobj_err fs u hm] at h
        exact absurd h (by simp)
      · rw [LlmService.normalizeEntities_jobj_ok fs vs hm] at h
        obtain rfl := Except.ok.inj h
        show jsSetDedup (((LlmService.fieldArray (.jobj fs) "locations").map
          fun l => jsTrim (asciiToLower (jsToString l))).filter (· ≠ "")) = []
        rw [hf]
        rfl

/-- C6 (witness): the coercion clause at a concrete input — a parsed
object whose `place_names` member is the string `"x"` (not an array)
normalizes to empty `place_names`. -/
theorem C6_witness :
    LlmService.normalizeEntities (.jobj [("place_names", JsonValue.jstr "x")]) =
      .ok ⟨[], [], []⟩ ∧
    (⟨[], [], []⟩ : LlmService.Entities).place_names = [] :=
  ⟨rfl,
    (C6_extract_total_normalized.2 [("place_names", JsonValue.jstr "x")]
      ⟨[], [], []⟩ rfl).1
      fun _ h => JsonValue.noConfusion (Option.some.inj h)⟩

/-- C7: every cache operation is best-effort and total: on a store
error (including an unreachable store) `get` returns `null`, `set`
returns `false`, `delete` returns `false` and `increment` returns `0`
(also when only the follow-up `expire` fails); and a stored value that
fails to deserialize is treated as a cache miss (`null`), not an
error. -/
theorem C7_cache_best_effort :
    (∀ (store : String → Except String (Option String))
        (args : List String) (e : String),
      store (CacheService.generateKey args) = .error e →
      CacheService.get store args = none) ∧
    (∀ (store : String → Except String Unit) (args : List String)
        (e : String),
      store (CacheService.generateKey args) = .error e →
      CacheService.set store args = false) ∧
    (∀ (store : String → Except String Nat) (args : List String)
        (e : String),
      store (CacheService.generateKey args) = .error e →
      CacheService.del store args = false) ∧
    (∀ (incr : String → Except String Int)
        (expire : String → Except String Unit) (args : List String)
        (e : String),
      incr (CacheService.generateKey args) = .error e →
      CacheService.increment incr expire args = 0) ∧
    (∀ (incr : String → Except String Int)
        (expire : String → Except String Unit) (args : List String)
        (v : Int) (e : String),
      incr (CacheService.generateKey args) = .ok v →
      expire (CacheService.generateKey args) = .error e →
      CacheService.increment incr expire args = 0) ∧
    (∀ (store : String → Except String (Option String))
        (args : List String) (v : String) (pe : String),
      store (CacheService.generateKey args) = .ok (some v) →
      Json.jsonParse v = .error pe →
      CacheService.get store args = none) := by
  refine ⟨?_, ?_, ?_, ?_, ?_, ?_⟩
  · intro store args e h
    simp [CacheService.get, h]
  · intro store args e h
    simp [CacheService.set, h]
  · intro store args e h
    simp [CacheService.del, h]
  · intro incr expire args e h
    simp [CacheService.increment, h]
  · intro incr expire args v e h1 h2
    simp [CacheService.increment, h1, h2]
  · intro store args v pe h1 h2
    by_cases hv : v = "" <;>
      simp [CacheService.get, h1, h2, hv]

/-- C7 (witness): the best-effort contract at concrete inputs — an
unreachable store for each operation, a failing `expire`, and a stored
value that is not valid JSON. -/
theorem C7_witness :
    CacheService.get (fun _ => .error "unreachable") ["k"] = none ∧
    CacheService.set (fun _ => .error "unreachable") ["k"] = false ∧
    CacheService.del (fun _ => .error "unreachable") ["k"] = false ∧
    CacheService.increment (fun _ => .error "unreachable")
      (fun _ => .ok ()) ["k"] = 0 ∧
    CacheService.increment (fun _ => .ok 7)
      (fun _ => .error "unreachable") ["k"] = 0 ∧
    CacheService.get (fun _ => .ok (some "not json")) ["k"] = none :=
  ⟨C7_cache_best_effort.1 _ ["k"] "unreachable" rfl,
   C7_cache_best_effort.2.1 _ ["k"] "unreachable" rfl,
   C7_cache_best_effort.2.2.1 _ ["k"] "unreachable" rfl,
   C7_cache_best_effort.2.2.2.1 _ _ ["k"] "unreachable" rfl,
   C7_cache_best_effort.2.2.2.2.1 _ _ ["k"] 7 "unreachable" rfl rfl,
   C7_cache_best_effort.2.2.2.2.2 _ ["k"] "not json" "Unexpected token n" rfl rfl⟩

set_option maxRecDepth 100000 in
/-- C8: cache-key derivation is deterministic, order-sensitive at the
fixed sample parts `"a"`, `"b"`, and computed by joining the parts
with `":"`, MD5-hashing the joined string and prefixing the
`"llm_maps:"` namespace. -/
theorem C8_key_deterministic_order_sensitive :
    (∀ a b : String,
      CacheService.generateKey [a, b] = CacheService.generateKey [a, b]) ∧
    (("a" : String) ≠ "b" ∧
      CacheService.generateKey ["a", "b"] ≠
        CacheService.generateKey ["b", "a"]) ∧
    (∀ args, CacheService.generateKey args =
      "llm_maps:" ++ md5hex (String.intercalate ":" args)) :=
  ⟨fun _ _ => rfl, ⟨by decide, by decide⟩, fun _ => rfl⟩

/-- C9: a nearby-lookup request with a falsy `location` or
`place_type` gets the 400 client error and the provider is never
invoked (call count 0); a valid request gets `{places, total}` with
`total` the length of the returned places list. -/
theorem C9_nearby_validation :
    (∀ (apiKey : String)
        (provider : Except String (List MapsService.RawPlace))
        (loc : Option (Int × Int)) (pt : Option String),
      loc = none ∨ pt = none ∨ pt = some "" →
      QueryController.nearbySearchController apiKey provider loc pt =
        (.badRequest "Location and place_type are required", 0)) ∧
    (∀ (apiKey : String)
        (provider : Except String (List MapsService.RawPlace))
        (loc : Option (Int × Int)) (pt : Option String),
      loc ≠ none → pt ≠ none → pt ≠ some "" →
      QueryController.nearbySearchController apiKey provider loc pt =
        (.success (MapsService.nearbySearch apiKey provider)
          (MapsService.nearbySearch apiKey provider).length, 1)) := by
  constructor
  · intro apiKey provider loc pt h
    unfold QueryController.nearbySearchController
    rw [if_pos h]
  · intro apiKey provider loc pt h1 h2 h3
    unfold QueryController.nearbySearchController
    rw [if_neg ?_]
    rintro (h | h | h)
    · exact h1 h
    · exact h2 h
    · exact h3 h

/-- C9 (witness): a request missing `place_type` gets the 400 with
zero provider calls; a valid request gets the formatted places with a
matching total. -/
theorem C9_witness :
    QueryController.nearbySearchController "KEY" (.ok []) (some (1, 2))
        none =
      (.badRequest "Location and place_type are required", 0) ∧
    QueryController.nearbySearchController "KEY" (.ok []) (some (1, 2))
        (some "cafe") =
      (.success (MapsService.nearbySearch "KEY" (.ok []))
        (MapsService.nearbySearch "KEY" (.ok [])).length, 1) :=
  ⟨C9_nearby_validation.1 "KEY" (.ok []) (some (1, 2)) none
      (Or.inr (Or.inl rfl)),
   C9_nearby_validation.2 "KEY" (.ok []) (some (1, 2)) (some "cafe")
      (by decide) (by decide) (by decide)⟩

/-- C10: joining key parts with `":"` without escaping makes
`generateKey` non-injective: the distinct part tuples `("a", "b")` and
`("a:b")` join to the same string and get the same cache key, so
`get`/`set`/`delete` on them alias the same cache entry. -/
theorem C10_key_aliasing :
    (["a", "b"] : List String) ≠ ["a:b"] ∧
    CacheService.generateKey ["a", "b"] = CacheService.generateKey ["a:b"] ∧
    (∀ store : String → Except String (Option String),
      CacheService.get store ["a", "b"] = CacheService.get store ["a:b"]) ∧
    (∀ store : String → Except String Unit,
      CacheService.set store ["a", "b"] = CacheService.set store ["a:b"]) ∧
    (∀ store : String → Except String Nat,
      CacheService.del store ["a", "b"] = CacheService.del store ["a:b"]) := by
  have hkey : CacheService.generateKey ["a", "b"] =
      CacheService.generateKey ["a:b"] := rfl
  refine ⟨by decide, hkey, fun store => ?_, fun store => ?_, fun store => ?_⟩
  · unfold CacheService.get
    rw [hkey]
  · unfold CacheService.set
    rw [hkey]
  · unfold CacheService.del
    rw [hkey]


end LlmMaps
